import Mathlib

/-!
Verification of the format-translating reverse-proxy PUT engine
(`src/proxy/PUT.go`, package `proxy`).

The handler is embedded shallowly: one call of `PUT` (or of one of the
pipeline functions `jsonPUT`, `xmlPUT`, `rawPUT`) is a pure function from
its inputs — the inbound request, the configuration constants, the format
tag, the token, and the outcome of the single backend call — to the list of
observable events it performs: header sets, status-line writes and body
writes on the `http.ResponseWriter`, reads and the close of the inbound
body, the outbound backend request, and reads and the close of the backend
response body.  Go's `encoding/json` and `encoding/xml` are external
collaborators and are modelled as an abstract `Codecs` structure over the
type `α` standing for Go's `interface\x7b\x7d`.  Logging calls are not
modelled (the logging sink is an external collaborator whose return value
is never used).  Writes to the client are modelled as infallible: failures
of the response channel itself are out of scope of the embedding.
-/

namespace ArborProxy

/-- Go `http.Header`: a map from (canonical) header keys to ordered value
lists; `[]` means the key is absent. -/
abbrev Header := String → List String

/-- Go `Header.Get`: the first value for the key, `""` if absent. -/
def hGet (h : Header) (k : String) : String := (h k).headD ""

/-- Go `Header.Set k v`: replace the value list of `k` by `[v]`. -/
def hSet (h : Header) (k v : String) : Header :=
  fun k' => if k' = k then [v] else h k'

/-- The header map of a fresh `http.NewRequest` (no headers). -/
def emptyHeader : Header := fun _ => []

/-- The Go copy loop `for k, vs := range src \x7b dst[k] = append copy of vs \x7d`:
every key present in `src` overwrites `dst`; keys absent from `src` keep
`dst`'s entry.  The per-key value list is copied verbatim, preserving
multi-value order. -/
def copyOnto (dst src : Header) : Header :=
  fun k => if src k = [] then dst k else src k

/-- The fragment `if token != "" \x7b req.Header.Set("Authorization", token) \x7d`
shared by all three pipelines. -/
def setAuth (token : String) (h : Header) : Header :=
  if token = "" then h else hSet h "Authorization" token

/-- Go's `encoding/json` and `encoding/xml`, abstract external
collaborators of the engine.  `α` plays the role of Go's
`interface\x7b\x7d`; `nilVal` is its zero value (what `Unmarshal` leaves
behind when it fails and the caller ignores the error).  `Unmarshal` is a
partial decoder, `Marshal` a partial encoder. -/
structure Codecs (α : Type) where
  nilVal : α
  jsonUnmarshal : String → Option α
  jsonMarshal : α → Option String
  xmlUnmarshal : String → Option α
  xmlMarshal : α → Option String

/-- Modelled from the spec: the process-wide configuration constants of §6
— `MaxRequestSize`, `MaxFileUploadSize` and the canonical content-type
strings `JSONHeader` / `XMLHeader` — are declared elsewhere in the
repository (not under `src/`).  The backend timeout is not modelled (the
embedding has no real time). -/
structure Config where
  maxRequestSize : Nat
  maxFileUploadSize : Nat
  jsonHeader : String
  xmlHeader : String

/-- The inbound client request: headers, the body byte stream, and the
possible failures of reading and of closing the body. -/
structure InReq where
  header : Header
  body : String
  bodyReadErr : Option String
  bodyCloseErr : Option String

/-- What the single `client.Do` call produced when it did not fail at the
transport level: status, headers, and the result of `ioutil.ReadAll` on the
response body (`body` is what the read returned, `bodyErr` its error). -/
structure BResp where
  status : Nat
  header : Header
  body : String
  bodyErr : Option String

/-- The outbound backend request descriptor (method is always PUT). -/
structure OutReq where
  url : String
  header : Header
  body : String

/-- One observable action of the handler. -/
inductive Ev where
  | setHdr (k v : String)
  | writeHeader (status : Nat)
  | write (b : String)
  | readClientBody (content : String)
  | closeClientBody
  | backendCall (req : OutReq)
  | readBackendBody
  | closeBackendBody

/-- Model of `ioutil.ReadAll(io.LimitReader(body, n))`: at most `n` bytes (modelled
as characters) of the stream; excess input is silently truncated. -/
def strTake (s : String) (n : Nat) : String := String.mk (s.data.take n)

/-- A JSON scalar, just enough to state the shape of the literal map
encoded by `invalidPUT`.  The Go error value in that map is modelled by its
message string. -/
inductive JVal where
  | num (n : Nat)
  | str (s : String)
deriving DecidableEq

/-- Rendering of a `JVal`. -/
def renderJVal : JVal → String
  | .num n => toString n
  | .str s => "\"" ++ s ++ "\""

/-- Rendering of one `"key":value` field. -/
def renderField (f : String × JVal) : String :=
  "\"" ++ f.1 ++ "\":" ++ renderJVal f.2

/-- Rendering of a JSON object from its fields. -/
def renderObj (fields : List (String × JVal)) : String :=
  "\x7b" ++ String.intercalate "," (fields.map renderField) ++ "\x7d"

/-- The map literal encoded by `invalidPUT` (PUT.go line 105), fields in
source order.  Note the source spells the third key `"Specfically"`. -/
def invalidBody (err : String) : List (String × JVal) :=
  [("Code", .num 422), ("Text", .str "Unprocessable Entity"),
   ("Specfically", .str err)]

/-- Modelled from the spec: `notifyClientOfRequestError` is repository code
outside `src/`; per §7 every failure is converted into a client-visible
response, here a bare status write (the source calls it with 502). -/
def notifyClientOfRequestError (status : Nat) : List Ev :=
  [.writeHeader status]

/-- Embedding of `invalidPUT` (PUT.go 102-110): 422 with the JSON error object.
`json.NewEncoder(w).Encode` appends a newline.  Encoding the concrete map
cannot fail, so the `notifyClientOfRequestError` branch of the source is
unreachable in the model. -/
def invalidPUT (err : String) : List Ev :=
  [.setHdr "Content-Type" "application/json; charset=UTF-8",
   .writeHeader 422,
   .write (renderObj (invalidBody err) ++ "\n")]

/-- Modelled from the spec: `invalidPOST` lives in the repository outside
`src/` (its POST counterpart); per §6/§7 a local processing failure yields
a 422 JSON error response of the same shape as `invalidPUT`. -/
def invalidPOST (err : String) : List Ev := invalidPUT err

/-- Embedding of `unsuccessfulPUT` (PUT.go 113-131): decode the backend's error body
with the request format's decoder — ignoring the decode error, so `data`
keeps its zero value when decoding fails — and re-encode it as JSON to the
client; unknown formats write the bytes through unchanged. -/
def unsuccessfulPUT {α : Type} (C : Codecs α) (format : String)
    (content : String) : List Ev :=
  if format = "JSON" then
    match C.jsonMarshal ((C.jsonUnmarshal content).getD C.nilVal) with
    | some s => [.write (s ++ "\n")]
    | none => notifyClientOfRequestError 502
  else if format = "XML" then
    match C.jsonMarshal ((C.xmlUnmarshal content).getD C.nilVal) with
    | some s => [.write (s ++ "\n")]
    | none => notifyClientOfRequestError 502
  else
    [.write content]

/-- The outbound header of `jsonPUT` (PUT.go 142-149): copy the inbound
headers onto the fresh request, then overwrite `Content-Type` with
`JSONHeader`, then set `Authorization` if the token is non-empty. -/
def outHeaderJSON (cfg : Config) (r : InReq) (token : String) : Header :=
  setAuth token (hSet (copyOnto emptyHeader r.header) "Content-Type" cfg.jsonHeader)

/-- The outbound header of `xmlPUT` (PUT.go 213-222): set `Content-Type`
to `XMLHeader` first, then copy the inbound headers over it, then set
`Authorization` if the token is non-empty. -/
def outHeaderXML (cfg : Config) (r : InReq) (token : String) : Header :=
  setAuth token (copyOnto (hSet emptyHeader "Content-Type" cfg.xmlHeader) r.header)

/-- The outbound header of `rawPUT` (PUT.go 293-302): copy the inbound
headers, then set `Authorization` if the token is non-empty. -/
def outHeaderRAW (r : InReq) (token : String) : Header :=
  setAuth token (copyOnto emptyHeader r.header)

/-- Embedding of `jsonPUT` (PUT.go 133-204). -/
def jsonPUT {α : Type} (C : Codecs α) (cfg : Config) (r : InReq)
    (url token : String) (data : α) (backend : Except String BResp) : List Ev :=
  match C.jsonMarshal data with
  | none => invalidPOST "json: unsupported value"
  | some content =>
    Ev.backendCall ⟨url, outHeaderJSON cfg r token, content⟩ ::
    (match backend with
     | .error e => invalidPUT e
     | .ok resp =>
       if resp.status = 302 then
         [.setHdr "Location" (hGet resp.header "Location"), .writeHeader 302]
       else if resp.status ≠ 200 then
         ([.setHdr "Content-Type" "application/json; charset=UTF-8",
           .writeHeader resp.status, .readBackendBody] ++
          unsuccessfulPUT C "JSON" resp.body)
       else
         Ev.readBackendBody ::
         ((match C.jsonUnmarshal resp.body with
           | none => invalidPUT "Failed to decode"
           | some sv =>
             Ev.setHdr "Content-Type" cfg.jsonHeader ::
             (match C.jsonMarshal sv with
              | some s => [.write (s ++ "\n")]
              | none => invalidPUT "Failed to encode")) ++
          [.closeBackendBody]))

/-- Embedding of `xmlPUT` (PUT.go 206-276).  Note the success path sets the status line
explicitly after writing the body, and the deferred close runs last. -/
def xmlPUT {α : Type} (C : Codecs α) (cfg : Config) (r : InReq)
    (url token : String) (data : α) (backend : Except String BResp) : List Ev :=
  match C.xmlMarshal data with
  | none => invalidPUT "xml: unsupported type"
  | some content =>
    Ev.backendCall ⟨url, outHeaderXML cfg r token, content⟩ ::
    (match backend with
     | .error e => invalidPUT e
     | .ok resp =>
       if resp.status = 302 then
         [.setHdr "Location" (hGet resp.header "Location"), .writeHeader 302]
       else if resp.status ≠ 200 then
         ([.setHdr "Content-Type" cfg.xmlHeader,
           .writeHeader resp.status, .readBackendBody] ++
          unsuccessfulPUT C "XML" resp.body)
       else
         Ev.readBackendBody ::
         ((match C.xmlUnmarshal resp.body with
           | none => invalidPUT "Failed decode"
           | some sv =>
             Ev.setHdr "Content-Type" cfg.jsonHeader ::
             (match C.jsonMarshal sv with
              | some s => [.write (s ++ "\n"), .writeHeader 200]
              | none => invalidPUT "Failed encode")) ++
          [.closeBackendBody]))

/-- Embedding of `rawPUT` (PUT.go 278-337).  The non-200 branch writes the backend's
status and falls through (no return) into the body-forwarding code. -/
def rawPUT (cfg : Config) (r : InReq) (url token : String)
    (backend : Except String BResp) : List Ev :=
  Ev.readClientBody (strTake r.body cfg.maxFileUploadSize) ::
  (match r.bodyReadErr with
   | some e => invalidPUT e
   | none =>
     match r.bodyCloseErr with
     | some e => Ev.closeClientBody :: invalidPUT e
     | none =>
       Ev.closeClientBody ::
       Ev.backendCall ⟨url, outHeaderRAW r token, strTake r.body cfg.maxFileUploadSize⟩ ::
       (match backend with
        | .error e => invalidPUT e
        | .ok resp =>
          (if resp.status ≠ 200 then
             [.setHdr "Content-Type" "application/json; charset=UTF-8",
              .writeHeader resp.status]
           else []) ++
          (Ev.readBackendBody ::
           ((match resp.bodyErr with
             | some e => invalidPUT e
             | none => [.setHdr "Content-Type" (hGet resp.header "Content-Type"),
                        .write resp.body]) ++
            [.closeBackendBody]))))

/-- Modelled from the spec: `requestPreprocessing` is repository code
outside `src/` (pre-flight checks run before format dispatch); on failure
it writes a single error response and `PUT` returns without any further
processing. -/
def preprocessingFailure : List Ev := [.writeHeader 401]

/-- The CORS header block at the top of `PUT` (PUT.go 41-48). -/
def corsEvents (r : InReq) : List Ev :=
  if hGet r.header "Origin" ≠ "" then
    [.setHdr "Access-Control-Allow-Origin" (hGet r.header "Origin"),
     .setHdr "Access-Control-Allow-Methods" "PUT",
     .setHdr "Access-Control-Allow-Headers"
       "Accept, Content-Type, Content-Length, Accept-Encoding, X-CSRF-Token, Authorization"]
  else []

/-- Embedding of `PUT` (PUT.go 39-98), the exported handler.  `preOk` is the outcome of
`requestPreprocessing`; `backend` is the outcome of the single `client.Do`
call of whichever pipeline runs.  Note line 79: the inbound body is
decoded with `json.Unmarshal` for both the JSON and the XML format. -/
def PUT {α : Type} (C : Codecs α) (cfg : Config) (url format token : String)
    (r : InReq) (preOk : Bool) (backend : Except String BResp) : List Ev :=
  corsEvents r ++
  (if preOk then
    (if format = "RAW" then rawPUT cfg r url token backend
     else if format ≠ "XML" ∧ format ≠ "JSON" then
       invalidPUT "Unsupported data encoding"
     else
       Ev.readClientBody (strTake r.body cfg.maxRequestSize) ::
       (match r.bodyReadErr with
        | some e => invalidPUT e
        | none =>
          match r.bodyCloseErr with
          | some e => Ev.closeClientBody :: invalidPUT e
          | none =>
            Ev.closeClientBody ::
            (match C.jsonUnmarshal (strTake r.body cfg.maxRequestSize) with
             | none => invalidPOST "invalid character"
             | some data =>
               if format = "XML" then xmlPUT C cfg r url token data backend
               else if format = "JSON" then jsonPUT C cfg r url token data backend
               else invalidPUT "Unsupported Data Encoding")))
   else preprocessingFailure)

/-! ## Observations on an event trace -/

/-- Does the event commit the response status?  An explicit `WriteHeader`
does; so does the first `Write` (Go sends the status line, 200, at the
first body write if `WriteHeader` was not called). -/
def isCommit : Ev → Bool
  | .writeHeader _ => true
  | .write _ => true
  | _ => false

/-- The status line the client actually receives: the first committing
event wins, later status writes are suppressed by Go's HTTP layer. -/
def clientStatus : List Ev → Option Nat
  | [] => none
  | .writeHeader s :: _ => some s
  | .write _ :: _ => some 200
  | _ :: tr => clientStatus tr

/-- Does the trace commit a response at all? -/
def hasCommit : List Ev → Bool
  | [] => false
  | e :: tr => isCommit e || hasCommit tr

/-- The number of explicit `WriteHeader` calls in the trace. -/
def statusLines : List Ev → Nat
  | [] => 0
  | .writeHeader _ :: tr => statusLines tr + 1
  | _ :: tr => statusLines tr

/-- Is the first committing event a body write (an implicit 200 status)? -/
def firstCommitIsWrite : List Ev → Bool
  | [] => false
  | .writeHeader _ :: _ => false
  | .write _ :: _ => true
  | _ :: tr => firstCommitIsWrite tr

/-- How many status lines the handler issues on the `ResponseWriter`:
explicit `WriteHeader` calls plus the implicit 200 committed by a first
`Write` that precedes any `WriteHeader`. -/
def commitCount (tr : List Ev) : Nat :=
  statusLines tr + (if firstCommitIsWrite tr then 1 else 0)

/-- The chunks written to the client body, in order. -/
def writesOf : List Ev → List String
  | [] => []
  | .write b :: tr => b :: writesOf tr
  | _ :: tr => writesOf tr

/-- The outbound backend requests issued by the trace. -/
def outboundCalls : List Ev → List OutReq
  | [] => []
  | .backendCall q :: tr => q :: outboundCalls tr
  | _ :: tr => outboundCalls tr

/-- The inbound body reads performed by the trace. -/
def clientReads : List Ev → List String
  | [] => []
  | .readClientBody c :: tr => c :: clientReads tr
  | _ :: tr => clientReads tr

/-- The bodies of the outbound backend requests. -/
def outBodies (tr : List Ev) : List String := (outboundCalls tr).map OutReq.body

/-- The number of reads of the backend response body. -/
def backendReads : List Ev → Nat
  | [] => 0
  | .readBackendBody :: tr => backendReads tr + 1
  | _ :: tr => backendReads tr

/-- The number of closes of the backend response body. -/
def backendCloses : List Ev → Nat
  | [] => 0
  | .closeBackendBody :: tr => backendCloses tr + 1
  | _ :: tr => backendCloses tr

/-- Auxiliary scan for `clientHeader`. -/
def clientHeaderAux (k : String) : Option String → List Ev → Option String
  | acc, [] => acc
  | acc, .setHdr k' v :: tr => clientHeaderAux k (if k' = k then some v else acc) tr
  | acc, .writeHeader _ :: _ => acc
  | acc, .write _ :: _ => acc
  | acc, _ :: tr => clientHeaderAux k acc tr

/-- The value of header `k` in the response the client receives: the last
`setHdr` for `k` before the status is committed. -/
def clientHeader (tr : List Ev) (k : String) : Option String :=
  clientHeaderAux k none tr

/-! ## A concrete codec instance and fixtures, for witnesses and
counterexamples.  `TVal` is a small stand-in for Go's dynamic value; the
codec functions imitate the behavior of `encoding/json` that the witnesses
rely on (double-quoted strings; `Marshal` escapes `<` as `<`, as Go's
`json.Marshal` does by default). -/

/-- A small dynamic value for instantiating `Codecs`. -/
inductive TVal where
  | vnil
  | vstr (s : String)
  | vnum (n : Nat)
deriving DecidableEq

/-- Go-style JSON escaping of one character (`json.Marshal` escapes `<`
as `<` by default; only that case matters here). -/
def goEsc (c : Char) : String :=
  if c = '<' then "\\u003c" else String.singleton c

/-- Characters of a quoted string up to its closing quote: succeeds iff
the list is exactly `inner ++ ['"']` with no quote inside `inner`. -/
def parseQuoted : List Char → Option (List Char)
  | [] => none
  | ['"'] => some []
  | '"' :: _ :: _ => none
  | c :: cs => (parseQuoted cs).map (c :: ·)

/-- A concrete `Codecs` instance (defined over `String.data` so that all
evaluations are structural). -/
def toyCodecs : Codecs TVal where
  nilVal := .vnil
  jsonUnmarshal s :=
    if s = "null" then some .vnil
    else
      match s.data with
      | '"' :: cs => (parseQuoted cs).map (fun l => .vstr (String.mk l))
      | c :: cs =>
        if (c :: cs).all Char.isDigit then
          some (.vnum ((c :: cs).foldl (fun a d => a * 10 + (d.toNat - 48)) 0))
        else none
      | [] => none
  jsonMarshal v :=
    match v with
    | .vnil => some "null"
    | .vstr s => some ("\"" ++ String.join (s.data.map goEsc) ++ "\"")
    | .vnum n => some (toString n)
  xmlUnmarshal s :=
    match s.data with
    | '<' :: _ => some (.vstr s)
    | _ => none
  xmlMarshal v :=
    match v with
    | .vnil => none
    | .vstr s => some s
    | .vnum n => some (toString n)

/-- Build a `Header` from an association list (concrete fixtures only). -/
def hdrOf (l : List (String × List String)) : Header :=
  fun k => ((l.find? fun p => p.1 == k).map Prod.snd).getD []

/-- A plain inbound request with a one-string JSON body. -/
def rIn : InReq := ⟨hdrOf [], "\"a\"", none, none⟩

/-- An inbound request that carries its own `Content-Type` header. -/
def rCT : InReq := ⟨hdrOf [("Content-Type", ["text/plain"])], "\"a\"", none, none⟩

/-- A concrete configuration. -/
def cfg0 : Config :=
  ⟨100, 1000, "application/json; charset=UTF-8", "application/xml; charset=UTF-8"⟩

/-- A backend redirect response. -/
def resp302 : BResp := ⟨302, hdrOf [("Location", ["https://x/y"])], "", none⟩

/-- A backend failure response with a JSON error body. -/
def resp500 : BResp := ⟨500, hdrOf [], "\"e\"", none⟩

/-- A backend success response with a JSON body. -/
def resp200 : BResp := ⟨200, hdrOf [], "\"b\"", none⟩

/-- A backend success response with an XML body. -/
def resp200x : BResp := ⟨200, hdrOf [], "<r>ok</r>", none⟩

/-! ## Trace algebra -/

theorem strTake_length_le (s : String) (n : Nat) : (strTake s n).length ≤ n := by
  have h : (strTake s n).length = (s.data.take n).length := rfl
  rw [h, List.length_take]
  exact Nat.min_le_left _ _

@[simp] theorem outboundCalls_append (a b : List Ev) :
    outboundCalls (a ++ b) = outboundCalls a ++ outboundCalls b := by
  induction a with
  | nil => rfl
  | cons e tr ih => cases e <;> simp [outboundCalls, ih]

@[simp] theorem clientReads_append (a b : List Ev) :
    clientReads (a ++ b) = clientReads a ++ clientReads b := by
  induction a with
  | nil => rfl
  | cons e tr ih => cases e <;> simp [clientReads, ih]

@[simp] theorem writesOf_append (a b : List Ev) :
    writesOf (a ++ b) = writesOf a ++ writesOf b := by
  induction a with
  | nil => rfl
  | cons e tr ih => cases e <;> simp [writesOf, ih]

@[simp] theorem hasCommit_append (a b : List Ev) :
    hasCommit (a ++ b) = (hasCommit a || hasCommit b) := by
  induction a with
  | nil => rfl
  | cons e tr ih =>
    simp only [List.cons_append, hasCommit, List.append_eq, ih, Bool.or_assoc]

@[simp] theorem backendCloses_append (a b : List Ev) :
    backendCloses (a ++ b) = backendCloses a + backendCloses b := by
  induction a with
  | nil => simp [backendCloses]
  | cons e tr ih => cases e <;> simp [backendCloses, ih] <;> omega

@[simp] theorem backendReads_append (a b : List Ev) :
    backendReads (a ++ b) = backendReads a + backendReads b := by
  induction a with
  | nil => simp [backendReads]
  | cons e tr ih => cases e <;> simp [backendReads, ih] <;> omega

@[simp] theorem outboundCalls_invalidPUT (e : String) :
    outboundCalls (invalidPUT e) = [] := rfl

@[simp] theorem outboundCalls_invalidPOST (e : String) :
    outboundCalls (invalidPOST e) = [] := rfl

@[simp] theorem outboundCalls_notify (s : Nat) :
    outboundCalls (notifyClientOfRequestError s) = [] := rfl

@[simp] theorem outboundCalls_unsuccessfulPUT {α : Type} (C : Codecs α)
    (f c : String) : outboundCalls (unsuccessfulPUT C f c) = [] := by
  unfold unsuccessfulPUT
  split
  · split <;> rfl
  · split
    · split <;> rfl
    · rfl

@[simp] theorem clientReads_invalidPUT (e : String) :
    clientReads (invalidPUT e) = [] := rfl

@[simp] theorem clientReads_invalidPOST (e : String) :
    clientReads (invalidPOST e) = [] := rfl

@[simp] theorem clientReads_notify (s : Nat) :
    clientReads (notifyClientOfRequestError s) = [] := rfl

@[simp] theorem clientReads_unsuccessfulPUT {α : Type} (C : Codecs α)
    (f c : String) : clientReads (unsuccessfulPUT C f c) = [] := by
  unfold unsuccessfulPUT
  split
  · split <;> rfl
  · split
    · split <;> rfl
    · rfl

@[simp] theorem hasCommit_invalidPUT (e : String) :
    hasCommit (invalidPUT e) = true := rfl

@[simp] theorem hasCommit_invalidPOST (e : String) :
    hasCommit (invalidPOST e) = true := rfl

@[simp] theorem hasCommit_notify (s : Nat) :
    hasCommit (notifyClientOfRequestError s) = true := rfl

@[simp] theorem hasCommit_unsuccessfulPUT {α : Type} (C : Codecs α)
    (f c : String) : hasCommit (unsuccessfulPUT C f c) = true := by
  unfold unsuccessfulPUT
  split
  · split <;> rfl
  · split
    · split <;> rfl
    · rfl

/-- The calls of `jsonPUT`: exactly one, with the JSON outbound header and
the re-marshalled inbound value as body, when marshalling succeeds. -/
theorem outboundCalls_jsonPUT {α : Type} (C : Codecs α) (cfg : Config)
    (r : InReq) (url token : String) (data : α) (backend : Except String BResp) :
    outboundCalls (jsonPUT C cfg r url token data backend) =
      match C.jsonMarshal data with
      | some c => [⟨url, outHeaderJSON cfg r token, c⟩]
      | none => [] := by
  unfold jsonPUT
  cases h : C.jsonMarshal data with
  | none => simp
  | some c =>
    cases backend with
    | error e => simp [outboundCalls]
    | ok resp =>
      by_cases h302 : resp.status = 302
      · simp [h302, outboundCalls]
      · by_cases h200 : resp.status = 200
        · cases hu : C.jsonUnmarshal resp.body with
          | none => simp [h302, h200, hu, outboundCalls]
          | some sv =>
            cases hm : C.jsonMarshal sv with
            | some s => simp [h302, h200, hu, hm, outboundCalls]
            | none => simp [h302, h200, hu, hm, outboundCalls]
        · simp [h302, h200, outboundCalls]

/-- The calls of `xmlPUT`: exactly one, with the XML outbound header and
the XML-marshalled inbound value as body, when marshalling succeeds. -/
theorem outboundCalls_xmlPUT {α : Type} (C : Codecs α) (cfg : Config)
    (r : InReq) (url token : String) (data : α) (backend : Except String BResp) :
    outboundCalls (xmlPUT C cfg r url token data backend) =
      match C.xmlMarshal data with
      | some c => [⟨url, outHeaderXML cfg r token, c⟩]
      | none => [] := by
  unfold xmlPUT
  cases h : C.xmlMarshal data with
  | none => simp
  | some c =>
    cases backend with
    | error e => simp [outboundCalls]
    | ok resp =>
      by_cases h302 : resp.status = 302
      · simp [h302, outboundCalls]
      · by_cases h200 : resp.status = 200
        · cases hu : C.xmlUnmarshal resp.body with
          | none => simp [h302, h200, hu, outboundCalls]
          | some sv =>
            cases hm : C.jsonMarshal sv with
            | some s => simp [h302, h200, hu, hm, outboundCalls]
            | none => simp [h302, h200, hu, hm, outboundCalls]
        · simp [h302, h200, outboundCalls]

/-- The calls of `rawPUT`: exactly one, with the RAW outbound header and
the (truncated) inbound bytes as body, once the inbound body was read and
closed without error. -/
theorem outboundCalls_rawPUT (cfg : Config) (r : InReq) (url token : String)
    (backend : Except String BResp) :
    outboundCalls (rawPUT cfg r url token backend) =
      match r.bodyReadErr, r.bodyCloseErr with
      | none, none => [⟨url, outHeaderRAW r token,
                        strTake r.body cfg.maxFileUploadSize⟩]
      | _, _ => [] := by
  unfold rawPUT
  cases hr : r.bodyReadErr with
  | some e => simp [outboundCalls]
  | none =>
    cases hc : r.bodyCloseErr with
    | some e => simp [outboundCalls]
    | none =>
      cases backend with
      | error e => simp [outboundCalls]
      | ok resp =>
        by_cases h200 : resp.status = 200
        · cases hb : resp.bodyErr with
          | some e => simp [h200, outboundCalls, hb]
          | none => simp [h200, outboundCalls, hb]
        · cases hb : resp.bodyErr with
          | some e => simp [h200, outboundCalls, hb]
          | none => simp [h200, outboundCalls, hb]

/-- Every branch of `jsonPUT` commits a response. -/
theorem hasCommit_jsonPUT {α : Type} (C : Codecs α) (cfg : Config) (r : InReq)
    (url token : String) (data : α) (backend : Except String BResp) :
    hasCommit (jsonPUT C cfg r url token data backend) = true := by
  unfold jsonPUT
  cases h : C.jsonMarshal data with
  | none => simp
  | some c =>
    cases backend with
    | error e => simp [hasCommit, isCommit]
    | ok resp =>
      by_cases h302 : resp.status = 302
      · simp [h302, hasCommit, isCommit]
      · by_cases h200 : resp.status = 200
        · cases hu : C.jsonUnmarshal resp.body with
          | none => simp [h302, h200, hu, hasCommit, isCommit]
          | some sv =>
            cases hm : C.jsonMarshal sv with
            | some s => simp [h302, h200, hu, hm, hasCommit, isCommit]
            | none => simp [h302, h200, hu, hm, hasCommit, isCommit]
        · simp [h302, h200, hasCommit, isCommit]

/-- Every branch of `xmlPUT` commits a response. -/
theorem hasCommit_xmlPUT {α : Type} (C : Codecs α) (cfg : Config) (r : InReq)
    (url token : String) (data : α) (backend : Except String BResp) :
    hasCommit (xmlPUT C cfg r url token data backend) = true := by
  unfold xmlPUT
  cases h : C.xmlMarshal data with
  | none => simp
  | some c =>
    cases backend with
    | error e => simp [hasCommit, isCommit]
    | ok resp =>
      by_cases h302 : resp.status = 302
      · simp [h302, hasCommit, isCommit]
      · by_cases h200 : resp.status = 200
        · cases hu : C.xmlUnmarshal resp.body with
          | none => simp [h302, h200, hu, hasCommit, isCommit]
          | some sv =>
            cases hm : C.jsonMarshal sv with
            | some s => simp [h302, h200, hu, hm, hasCommit, isCommit]
            | none => simp [h302, h200, hu, hm, hasCommit, isCommit]
        · simp [h302, h200, hasCommit, isCommit]

/-- Every branch of `rawPUT` commits a response. -/
theorem hasCommit_rawPUT (cfg : Config) (r : InReq) (url token : String)
    (backend : Except String BResp) :
    hasCommit (rawPUT cfg r url token backend) = true := by
  unfold rawPUT
  cases hr : r.bodyReadErr with
  | some e => simp [hasCommit, isCommit]
  | none =>
    cases hc : r.bodyCloseErr with
    | some e => simp [hasCommit, isCommit]
    | none =>
      cases backend with
      | error e => simp [hasCommit, isCommit]
      | ok resp =>
        by_cases h200 : resp.status = 200
        · cases hb : resp.bodyErr with
          | some e => simp [h200, hb, hasCommit, isCommit]
          | none => simp [h200, hb, hasCommit, isCommit]
        · cases hb : resp.bodyErr with
          | some e => simp [h200, hb, hasCommit, isCommit]
          | none => simp [h200, hb, hasCommit, isCommit]

/-! ## Values of the outbound header builders -/

theorem outHeaderJSON_CT {cfg : Config} {r : InReq} {token : String} :
    outHeaderJSON cfg r token "Content-Type" = [cfg.jsonHeader] := by
  unfold outHeaderJSON setAuth hSet copyOnto emptyHeader
  by_cases ht : token = "" <;> simp [ht]

theorem outHeaderJSON_other {cfg : Config} {r : InReq} {token k : String}
    (h1 : k ≠ "Content-Type") (h2 : k ≠ "Authorization") :
    outHeaderJSON cfg r token k = r.header k := by
  unfold outHeaderJSON setAuth hSet copyOnto emptyHeader
  by_cases ht : token = "" <;> by_cases hk : r.header k = [] <;> simp [ht, h1, h2, hk]

theorem outHeaderJSON_auth {cfg : Config} {r : InReq} {token : String} :
    outHeaderJSON cfg r token "Authorization" =
      if token = "" then r.header "Authorization" else [token] := by
  unfold outHeaderJSON setAuth hSet copyOnto emptyHeader
  by_cases ht : token = "" <;> by_cases hk : r.header "Authorization" = [] <;>
    simp [ht, hk]

theorem outHeaderXML_CT {cfg : Config} {r : InReq} {token : String} :
    outHeaderXML cfg r token "Content-Type" =
      if r.header "Content-Type" = [] then [cfg.xmlHeader]
      else r.header "Content-Type" := by
  unfold outHeaderXML setAuth hSet copyOnto emptyHeader
  by_cases ht : token = "" <;> by_cases hk : r.header "Content-Type" = [] <;>
    simp [ht, hk]

theorem outHeaderXML_other {cfg : Config} {r : InReq} {token k : String}
    (h1 : k ≠ "Content-Type") (h2 : k ≠ "Authorization") :
    outHeaderXML cfg r token k = r.header k := by
  unfold outHeaderXML setAuth hSet copyOnto emptyHeader
  by_cases ht : token = "" <;> by_cases hk : r.header k = [] <;>
    simp [ht, h1, h2, hk]

theorem outHeaderXML_auth {cfg : Config} {r : InReq} {token : String} :
    outHeaderXML cfg r token "Authorization" =
      if token = "" then r.header "Authorization" else [token] := by
  unfold outHeaderXML setAuth hSet copyOnto emptyHeader
  by_cases ht : token = "" <;> by_cases hk : r.header "Authorization" = [] <;>
    simp [ht, hk]

theorem outHeaderRAW_other {r : InReq} {token k : String}
    (h2 : k ≠ "Authorization") :
    outHeaderRAW r token k = r.header k := by
  unfold outHeaderRAW setAuth hSet copyOnto emptyHeader
  by_cases ht : token = "" <;> by_cases hk : r.header k = [] <;>
    simp [ht, h2, hk]

theorem outHeaderRAW_auth {r : InReq} {token : String} :
    outHeaderRAW r token "Authorization" =
      if token = "" then r.header "Authorization" else [token] := by
  unfold outHeaderRAW setAuth hSet copyOnto emptyHeader
  by_cases ht : token = "" <;> by_cases hk : r.header "Authorization" = [] <;>
    simp [ht, hk]

/-! ## The CORS prefix and further branch facts -/

@[simp] theorem outboundCalls_cors (r : InReq) :
    outboundCalls (corsEvents r) = [] := by
  unfold corsEvents; split <;> rfl

@[simp] theorem clientReads_cors (r : InReq) :
    clientReads (corsEvents r) = [] := by
  unfold corsEvents; split <;> rfl

@[simp] theorem hasCommit_cors (r : InReq) :
    hasCommit (corsEvents r) = false := by
  unfold corsEvents; split <;> rfl

@[simp] theorem clientStatus_cors_append (r : InReq) (tr : List Ev) :
    clientStatus (corsEvents r ++ tr) = clientStatus tr := by
  unfold corsEvents; split <;> simp [clientStatus]

@[simp] theorem clientStatus_invalidPUT (e : String) :
    clientStatus (invalidPUT e) = some 422 := rfl

@[simp] theorem clientStatus_invalidPOST (e : String) :
    clientStatus (invalidPOST e) = some 422 := rfl

/-- The function `jsonPUT` never reads the inbound body (it receives the decoded value). -/
theorem clientReads_jsonPUT {α : Type} (C : Codecs α) (cfg : Config) (r : InReq)
    (url token : String) (data : α) (backend : Except String BResp) :
    clientReads (jsonPUT C cfg r url token data backend) = [] := by
  unfold jsonPUT
  cases h : C.jsonMarshal data with
  | none => simp
  | some c =>
    cases backend with
    | error e => simp [clientReads]
    | ok resp =>
      by_cases h302 : resp.status = 302
      · simp [h302, clientReads]
      · by_cases h200 : resp.status = 200
        · cases hu : C.jsonUnmarshal resp.body with
          | none => simp [h302, h200, hu, clientReads]
          | some sv =>
            cases hm : C.jsonMarshal sv with
            | some s => simp [h302, h200, hu, hm, clientReads]
            | none => simp [h302, h200, hu, hm, clientReads]
        · simp [h302, h200, clientReads]

/-- The function `xmlPUT` never reads the inbound body. -/
theorem clientReads_xmlPUT {α : Type} (C : Codecs α) (cfg : Config) (r : InReq)
    (url token : String) (data : α) (backend : Except String BResp) :
    clientReads (xmlPUT C cfg r url token data backend) = [] := by
  unfold xmlPUT
  cases h : C.xmlMarshal data with
  | none => simp
  | some c =>
    cases backend with
    | error e => simp [clientReads]
    | ok resp =>
      by_cases h302 : resp.status = 302
      · simp [h302, clientReads]
      · by_cases h200 : resp.status = 200
        · cases hu : C.xmlUnmarshal resp.body with
          | none => simp [h302, h200, hu, clientReads]
          | some sv =>
            cases hm : C.jsonMarshal sv with
            | some s => simp [h302, h200, hu, hm, clientReads]
            | none => simp [h302, h200, hu, hm, clientReads]
        · simp [h302, h200, clientReads]

/-- The function `rawPUT` reads the inbound body exactly once, truncated at
`MaxFileUploadSize`. -/
theorem clientReads_rawPUT (cfg : Config) (r : InReq) (url token : String)
    (backend : Except String BResp) :
    clientReads (rawPUT cfg r url token backend) =
      [strTake r.body cfg.maxFileUploadSize] := by
  unfold rawPUT
  cases hr : r.bodyReadErr with
  | some e => simp [clientReads]
  | none =>
    cases hc : r.bodyCloseErr with
    | some e => simp [clientReads]
    | none =>
      cases backend with
      | error e => simp [clientReads]
      | ok resp =>
        by_cases h200 : resp.status = 200
        · cases hb : resp.bodyErr with
          | some e => simp [h200, hb, clientReads]
          | none => simp [h200, hb, clientReads]
        · cases hb : resp.bodyErr with
          | some e => simp [h200, hb, clientReads]
          | none => simp [h200, hb, clientReads]

/-! ## Claims -/

/-- C9: in every format pipeline the outbound request's headers are the
pipeline's header builder applied to the inbound request, and that
builder's `Authorization` entry is exactly the copied inbound entry when
the supplied token is empty (absent if the inbound had none), and `[token]`
when the token is non-empty — the engine neither sets nor clears
`Authorization` for an empty token. -/
theorem c9_authorization_only_if_token {α : Type} (C : Codecs α) (cfg : Config)
    (r : InReq) (url token : String) (data : α) (backend : Except String BResp) :
    (outboundCalls (jsonPUT C cfg r url token data backend) =
       match C.jsonMarshal data with
       | some c => [⟨url, outHeaderJSON cfg r token, c⟩]
       | none => []) ∧
    (outboundCalls (xmlPUT C cfg r url token data backend) =
       match C.xmlMarshal data with
       | some c => [⟨url, outHeaderXML cfg r token, c⟩]
       | none => []) ∧
    (outboundCalls (rawPUT cfg r url token backend) =
       match r.bodyReadErr, r.bodyCloseErr with
       | none, none => [⟨url, outHeaderRAW r token,
                         strTake r.body cfg.maxFileUploadSize⟩]
       | _, _ => []) ∧
    outHeaderJSON cfg r token "Authorization" =
      (if token = "" then r.header "Authorization" else [token]) ∧
    outHeaderXML cfg r token "Authorization" =
      (if token = "" then r.header "Authorization" else [token]) ∧
    outHeaderRAW r token "Authorization" =
      (if token = "" then r.header "Authorization" else [token]) :=
  ⟨outboundCalls_jsonPUT C cfg r url token data backend,
   outboundCalls_xmlPUT C cfg r url token data backend,
   outboundCalls_rawPUT cfg r url token backend,
   outHeaderJSON_auth, outHeaderXML_auth, outHeaderRAW_auth⟩

/-- C10 counterexample: the 422 error object's keys are `Code`, `Text` and
`Specfically` — the key `Specifically` claimed by the spec does not occur
(the source misspells it). -/
theorem c10_counterexample :
    (invalidBody "boom").map Prod.fst = ["Code", "Text", "Specfically"] ∧
    ¬ ("Specifically" ∈ (invalidBody "boom").map Prod.fst) := by
  decide

/-- C10 (amended): on a local processing failure, `invalidPUT` answers 422
with a JSON object whose keys are exactly `Code` (the numeric status 422),
`Text`, and `Specfically` (the source's spelling of `Specifically`),
the last carrying the error detail. -/
theorem c10_amended (err : String) :
    clientStatus (invalidPUT err) = some 422 ∧
    writesOf (invalidPUT err) = [renderObj (invalidBody err) ++ "\n"] ∧
    invalidBody err =
      [("Code", .num 422), ("Text", .str "Unprocessable Entity"),
       ("Specfically", .str err)] :=
  ⟨rfl, rfl, rfl⟩

/-- C7: a format tag other than JSON, XML and RAW fails the call with a 422
response before the inbound request body is read, and no backend call is
made. -/
theorem c7_unsupported_format_fails_fast {α : Type} (C : Codecs α)
    (cfg : Config) (url format token : String) (r : InReq)
    (backend : Except String BResp)
    (h1 : format ≠ "RAW") (h2 : format ≠ "XML") (h3 : format ≠ "JSON") :
    clientStatus (PUT C cfg url format token r true backend) = some 422 ∧
    clientReads (PUT C cfg url format token r true backend) = [] ∧
    outboundCalls (PUT C cfg url format token r true backend) = [] := by
  unfold PUT
  simp [h1, h2, h3]

/-- C7 witness at the concrete format tag "YAML". -/
theorem c7_witness :
    clientStatus (PUT toyCodecs cfg0 "u" "YAML" "" rIn true (Except.error "e"))
        = some 422 ∧
    clientReads (PUT toyCodecs cfg0 "u" "YAML" "" rIn true (Except.error "e"))
        = [] ∧
    outboundCalls (PUT toyCodecs cfg0 "u" "YAML" "" rIn true (Except.error "e"))
        = [] :=
  c7_unsupported_format_fails_fast toyCodecs cfg0 "u" "YAML" "" rIn
    (Except.error "e") (by decide) (by decide) (by decide)

/-- C5: the backend response body is leaked, not closed, on the redirect
and backend-failure exits of the JSON and XML pipelines — the deferred
`Close` is registered only after those branches return.  Evaluated at the
failing inputs: a 302 response to `jsonPUT`, a 500 response to `xmlPUT`
(no close event, though the backend call happened), contrasted with the
200 path which does close. -/
theorem c5_body_leaked_on_error_paths :
    backendCloses (jsonPUT toyCodecs cfg0 rIn "u" ""
        (TVal.vstr "a") (Except.ok resp302)) = 0 ∧
    (outboundCalls (jsonPUT toyCodecs cfg0 rIn "u" ""
        (TVal.vstr "a") (Except.ok resp302))).length = 1 ∧
    backendCloses (xmlPUT toyCodecs cfg0 rIn "u" ""
        (TVal.vstr "a") (Except.ok resp500)) = 0 ∧
    (outboundCalls (xmlPUT toyCodecs cfg0 rIn "u" ""
        (TVal.vstr "a") (Except.ok resp500))).length = 1 ∧
    backendCloses (jsonPUT toyCodecs cfg0 rIn "u" ""
        (TVal.vstr "a") (Except.ok resp200)) = 1 := by
  decide

/-- C4 counterexample: the handler does not always issue exactly one
status line.  On the XML pipeline's 200 path it writes the body (an
implicit 200 commit) and then calls `WriteHeader(200)` again; on the RAW
pipeline's non-200 branch it writes the backend status and then falls
through into the body-forwarding code, where a body-read failure issues a
second, 422 status. -/
theorem c4_counterexample :
    commitCount (PUT toyCodecs cfg0 "u" "XML" "" rIn true
        (Except.ok resp200x)) = 2 ∧
    commitCount (rawPUT cfg0 rIn "u" ""
        (Except.ok ⟨500, hdrOf [], "", some "read error"⟩)) = 2 := by
  decide

/-- C4 (amended): on every branch of every pipeline the handler commits at
least one response status to the client — never zero — and the client
receives exactly the first committed status line (Go's HTTP layer
suppresses later ones); the handler may however issue a second, suppressed
status write on the XML 200 path and on the RAW non-200 fall-through. -/
theorem c4_amended {α : Type} (C : Codecs α) (cfg : Config)
    (url format token : String) (r : InReq) (preOk : Bool)
    (backend : Except String BResp) :
    hasCommit (PUT C cfg url format token r preOk backend) = true := by
  unfold PUT
  cases preOk with
  | false => simp [preprocessingFailure, hasCommit, isCommit]
  | true =>
    by_cases hraw : format = "RAW"
    · simp [hraw, hasCommit_rawPUT]
    · by_cases hx : format = "XML"
      · cases hr : r.bodyReadErr with
        | some e => simp [hraw, hx, hr, hasCommit, isCommit]
        | none =>
          cases hc : r.bodyCloseErr with
          | some e => simp [hraw, hx, hr, hc, hasCommit, isCommit]
          | none =>
            cases hu : C.jsonUnmarshal (strTake r.body cfg.maxRequestSize) with
            | none => simp [hraw, hx, hr, hc, hu, hasCommit, isCommit]
            | some d => simp [hraw, hx, hr, hc, hu, hasCommit, isCommit,
                hasCommit_xmlPUT]
      · by_cases hj : format = "JSON"
        · cases hr : r.bodyReadErr with
          | some e => simp [hraw, hx, hj, hr, hasCommit, isCommit]
          | none =>
            cases hc : r.bodyCloseErr with
            | some e => simp [hraw, hx, hj, hr, hc, hasCommit, isCommit]
            | none =>
              cases hu : C.jsonUnmarshal (strTake r.body cfg.maxRequestSize) with
              | none => simp [hraw, hx, hj, hr, hc, hu, hasCommit, isCommit]
              | some d => simp [hraw, hx, hj, hr, hc, hu, hasCommit, isCommit,
                  hasCommit_jsonPUT]
        · simp [hraw, hx, hj]

/-- C6: a 302 backend response under the JSON or XML pipeline is relayed
as a 302 client response whose `Location` header is the backend's
`Location` header, with no body read and no body written. -/
theorem c6_redirect_propagation {α : Type} (C : Codecs α) (cfg : Config)
    (r : InReq) (url token : String) (data : α) (resp : BResp)
    (h : resp.status = 302) :
    (∀ c, C.jsonMarshal data = some c →
       clientStatus (jsonPUT C cfg r url token data (Except.ok resp)) = some 302 ∧
       clientHeader (jsonPUT C cfg r url token data (Except.ok resp)) "Location"
         = some (hGet resp.header "Location") ∧
       writesOf (jsonPUT C cfg r url token data (Except.ok resp)) = [] ∧
       backendReads (jsonPUT C cfg r url token data (Except.ok resp)) = 0) ∧
    (∀ c, C.xmlMarshal data = some c →
       clientStatus (xmlPUT C cfg r url token data (Except.ok resp)) = some 302 ∧
       clientHeader (xmlPUT C cfg r url token data (Except.ok resp)) "Location"
         = some (hGet resp.header "Location") ∧
       writesOf (xmlPUT C cfg r url token data (Except.ok resp)) = [] ∧
       backendReads (xmlPUT C cfg r url token data (Except.ok resp)) = 0) := by
  constructor
  · intro c hm
    unfold jsonPUT
    simp [hm, h, clientStatus, clientHeader, clientHeaderAux, writesOf,
      backendReads]
  · intro c hm
    unfold xmlPUT
    simp [hm, h, clientStatus, clientHeader, clientHeaderAux, writesOf,
      backendReads]

/-- C6 witness at a concrete redirect response. -/
theorem c6_witness :
    clientStatus (jsonPUT toyCodecs cfg0 rIn "u" "" (TVal.vstr "a")
        (Except.ok resp302)) = some 302 ∧
    clientHeader (jsonPUT toyCodecs cfg0 rIn "u" "" (TVal.vstr "a")
        (Except.ok resp302)) "Location" = some "https://x/y" := by
  have h := (c6_redirect_propagation toyCodecs cfg0 rIn "u" "" (TVal.vstr "a")
      resp302 rfl).1 "\"a\"" (by decide)
  exact ⟨h.1, h.2.1⟩

/-- C1: a backend response with status other than 200 and 302 under the
JSON (resp. XML) pipeline is answered with the backend's status and a body
that is the JSON re-encoding of the backend's error body decoded with the
request format's decoder; under the RAW pipeline the error bytes are
written to the client unchanged.  (Unknown formats never reach a backend
call — see the unsupported-format claim.) -/
theorem c1_error_body_always_json {α : Type} (C : Codecs α) (cfg : Config)
    (r : InReq) (url token : String) (data : α) (resp : BResp)
    (h302 : resp.status ≠ 302) (h200 : resp.status ≠ 200) :
    (∀ c v s, C.jsonMarshal data = some c →
       C.jsonUnmarshal resp.body = some v → C.jsonMarshal v = some s →
       writesOf (jsonPUT C cfg r url token data (Except.ok resp)) = [s ++ "\n"] ∧
       clientStatus (jsonPUT C cfg r url token data (Except.ok resp))
         = some resp.status) ∧
    (∀ c v s, C.xmlMarshal data = some c →
       C.xmlUnmarshal resp.body = some v → C.jsonMarshal v = some s →
       writesOf (xmlPUT C cfg r url token data (Except.ok resp)) = [s ++ "\n"] ∧
       clientStatus (xmlPUT C cfg r url token data (Except.ok resp))
         = some resp.status) ∧
    (r.bodyReadErr = none → r.bodyCloseErr = none → resp.bodyErr = none →
       writesOf (rawPUT cfg r url token (Except.ok resp)) = [resp.body] ∧
       clientStatus (rawPUT cfg r url token (Except.ok resp))
         = some resp.status) := by
  refine ⟨?_, ?_, ?_⟩
  · intro c v s hm hv hs
    unfold jsonPUT unsuccessfulPUT
    simp [hm, h302, h200, hv, hs, writesOf, clientStatus]
  · intro c v s hm hv hs
    unfold xmlPUT unsuccessfulPUT
    simp [hm, h302, h200, hv, hs, writesOf, clientStatus]
  · intro hr hc hb
    unfold rawPUT
    simp [hr, hc, h200, hb, writesOf, clientStatus]

/-- C1 witness: a 500 response with body `"e"` under the JSON pipeline is
relayed as 500 with the JSON re-encoding of that body. -/
theorem c1_witness :
    writesOf (jsonPUT toyCodecs cfg0 rIn "u" "" (TVal.vstr "a")
        (Except.ok resp500)) = ["\"e\"" ++ "\n"] ∧
    clientStatus (jsonPUT toyCodecs cfg0 rIn "u" "" (TVal.vstr "a")
        (Except.ok resp500)) = some 500 :=
  (c1_error_body_always_json toyCodecs cfg0 rIn "u" "" (TVal.vstr "a") resp500
      (by decide) (by decide)).1 "\"a\"" (TVal.vstr "e") "\"e\""
      (by decide) (by decide) (by decide)

/-- C3 counterexample: under the XML pipeline an inbound `Content-Type`
header is NOT overwritten by the canonical XML value — the copy loop runs
after the `Set` and the copied value stands. -/
theorem c3_counterexample :
    (outboundCalls (PUT toyCodecs cfg0 "u" "XML" "" rCT true
        (Except.error "refused"))).map (fun q => q.header "Content-Type")
      = [["text/plain"]] ∧
    ¬ (["text/plain"] = [cfg0.xmlHeader]) := by
  exact ⟨by decide, by decide⟩

/-- C3 (amended): in the JSON pipeline the outbound headers are the
inbound headers copied verbatim with `Content-Type` then overwritten to
the canonical JSON value; in the XML pipeline `Content-Type` is set to the
canonical XML value before the copy, so an inbound `Content-Type` header
overrides it and the canonical value is used only when the inbound request
carries no `Content-Type`.  All other keys (`Authorization` apart) are
copied verbatim in both pipelines. -/
theorem c3_content_type_amended {α : Type} (C : Codecs α) (cfg : Config)
    (r : InReq) (url token : String) (data : α) (backend : Except String BResp) :
    (outboundCalls (jsonPUT C cfg r url token data backend) =
       match C.jsonMarshal data with
       | some c => [⟨url, outHeaderJSON cfg r token, c⟩]
       | none => []) ∧
    (outboundCalls (xmlPUT C cfg r url token data backend) =
       match C.xmlMarshal data with
       | some c => [⟨url, outHeaderXML cfg r token, c⟩]
       | none => []) ∧
    outHeaderJSON cfg r token "Content-Type" = [cfg.jsonHeader] ∧
    outHeaderXML cfg r token "Content-Type" =
      (if r.header "Content-Type" = [] then [cfg.xmlHeader]
       else r.header "Content-Type") ∧
    (∀ k, k ≠ "Content-Type" → k ≠ "Authorization" →
       outHeaderJSON cfg r token k = r.header k ∧
       outHeaderXML cfg r token k = r.header k) :=
  ⟨outboundCalls_jsonPUT C cfg r url token data backend,
   outboundCalls_xmlPUT C cfg r url token data backend,
   outHeaderJSON_CT, outHeaderXML_CT,
   fun _ h1 h2 => ⟨outHeaderJSON_other h1 h2, outHeaderXML_other h1 h2⟩⟩

/-- C3 witness at a concrete non-special header key. -/
theorem c3_witness :
    outHeaderJSON cfg0 rCT "" "Accept" = rCT.header "Accept" ∧
    outHeaderXML cfg0 rCT "" "Accept" = rCT.header "Accept" :=
  (c3_content_type_amended toyCodecs cfg0 rCT "u" "" TVal.vnil
      (Except.error "e")).2.2.2.2 "Accept" (by decide) (by decide)

/-- An inbound request whose body is XML, not JSON. -/
def rXml : InReq := ⟨hdrOf [], "<a/>", none, none⟩

/-- A configuration with a tiny structured-body ceiling. -/
def cfgS : Config :=
  ⟨3, 1000, "application/json; charset=UTF-8", "application/xml; charset=UTF-8"⟩

/-- An inbound body longer than `cfgS`'s structured ceiling. -/
def rBig : InReq := ⟨hdrOf [], "\"abcd\"", none, none⟩

/-- An inbound body that fits `cfgS`'s ceiling but whose re-encoding does
not (`json.Marshal` escapes `<` as a six-character sequence). -/
def rLt : InReq := ⟨hdrOf [], "\"<\"", none, none⟩

/-- C2 counterexample: under format XML the inbound body is NOT decoded
with the XML decoder.  The body `<a/>` is accepted by the XML decoder, yet
the call is rejected with 422 (it fails `json.Unmarshal`, the decoder the
code actually applies) and no backend call is made. -/
theorem c2_counterexample :
    toyCodecs.xmlUnmarshal "<a/>" = some (TVal.vstr "<a/>") ∧
    clientStatus (PUT toyCodecs cfg0 "u" "XML" "" rXml true
        (Except.error "refused")) = some 422 ∧
    outboundCalls (PUT toyCodecs cfg0 "u" "XML" "" rXml true
        (Except.error "refused")) = [] := by
  refine ⟨by decide, by decide, rfl⟩

/-- C2 (amended): for both structured formats the inbound body is decoded
with the JSON decoder (`json.Unmarshal`); the format's own encoder is then
used only for the outbound re-encoding (JSON marshal for JSON, XML marshal
for XML).  A body rejected by the JSON decoder fails the call even when
the declared format is XML. -/
theorem c2_inbound_decoded_with_json {α : Type} (C : Codecs α) (cfg : Config)
    (url token : String) (r : InReq) (backend : Except String BResp)
    (hr : r.bodyReadErr = none) (hc : r.bodyCloseErr = none) :
    (outboundCalls (PUT C cfg url "JSON" token r true backend) =
       match C.jsonUnmarshal (strTake r.body cfg.maxRequestSize) with
       | none => []
       | some d =>
         match C.jsonMarshal d with
         | none => []
         | some c => [⟨url, outHeaderJSON cfg r token, c⟩]) ∧
    (outboundCalls (PUT C cfg url "XML" token r true backend) =
       match C.jsonUnmarshal (strTake r.body cfg.maxRequestSize) with
       | none => []
       | some d =>
         match C.xmlMarshal d with
         | none => []
         | some c => [⟨url, outHeaderXML cfg r token, c⟩]) := by
  constructor
  · unfold PUT
    cases hu : C.jsonUnmarshal (strTake r.body cfg.maxRequestSize) with
    | none => simp [hr, hc, hu, outboundCalls]
    | some d =>
      cases hm : C.jsonMarshal d with
      | none => simp [hr, hc, hu, hm, outboundCalls, outboundCalls_jsonPUT]
      | some c => simp [hr, hc, hu, hm, outboundCalls, outboundCalls_jsonPUT]
  · unfold PUT
    cases hu : C.jsonUnmarshal (strTake r.body cfg.maxRequestSize) with
    | none => simp [hr, hc, hu, outboundCalls]
    | some d =>
      cases hm : C.xmlMarshal d with
      | none => simp [hr, hc, hu, hm, outboundCalls, outboundCalls_xmlPUT]
      | some c => simp [hr, hc, hu, hm, outboundCalls, outboundCalls_xmlPUT]

/-- C2 witness: a JSON string body under format XML is JSON-decoded, then
XML-marshalled onto the backend request. -/
theorem c2_witness :
    outboundCalls (PUT toyCodecs cfg0 "u" "XML" "" rIn true (Except.error "e"))
      = [⟨"u", outHeaderXML cfg0 rIn "", "a"⟩] := by
  have h := (c2_inbound_decoded_with_json toyCodecs cfg0 "u" "" rIn
      (Except.error "e") rfl rfl).2
  rw [h]
  rfl

/-- C8 counterexample: the "truncated, not rejected; at most the ceiling
forwarded" behavior fails for the structured pipelines.  With ceiling 3, an
over-ceiling JSON body is truncated into garbage and the call is rejected
with 422 (nothing forwarded); and the in-ceiling body `"<"` is forwarded as
its 8-byte re-encoding, exceeding the ceiling. -/
theorem c8_counterexample :
    clientStatus (PUT toyCodecs cfgS "u" "JSON" "" rBig true
        (Except.error "e")) = some 422 ∧
    outboundCalls (PUT toyCodecs cfgS "u" "JSON" "" rBig true
        (Except.error "e")) = [] ∧
    outBodies (PUT toyCodecs cfgS "u" "JSON" "" rLt true
        (Except.error "e")) = ["\"\\u003c\""] ∧
    cfgS.maxRequestSize < ("\"\\u003c\"" : String).length := by
  refine ⟨by decide, rfl, by decide, by decide⟩

/-- C8 (amended): the engine reads at most `MaxRequestSize` (JSON/XML) or
`MaxFileUploadSize` (RAW) from the inbound body, truncating without a size
error; the RAW pipeline forwards the truncated bytes, at most the ceiling.
The structured pipelines forward the re-encoding of the decoded truncated
bytes instead, which is not bounded by the ceiling, and a body truncated
mid-value fails decoding and is rejected with 422. -/
theorem c8_read_bounds_amended {α : Type} (C : Codecs α) (cfg : Config)
    (url token : String) (r : InReq) (preOk : Bool)
    (backend : Except String BResp) :
    (∀ c ∈ clientReads (PUT C cfg url "RAW" token r preOk backend),
       c.length ≤ cfg.maxFileUploadSize) ∧
    (∀ b ∈ outBodies (PUT C cfg url "RAW" token r preOk backend),
       b.length ≤ cfg.maxFileUploadSize) ∧
    (∀ format, format ≠ "RAW" →
       ∀ c ∈ clientReads (PUT C cfg url format token r preOk backend),
         c.length ≤ cfg.maxRequestSize) := by
  refine ⟨?_, ?_, ?_⟩
  · intro c hmem
    unfold PUT at hmem
    cases preOk with
    | false => simp [preprocessingFailure, clientReads] at hmem
    | true =>
      simp [clientReads_rawPUT] at hmem
      subst hmem
      exact strTake_length_le _ _
  · intro b hmem
    unfold PUT at hmem
    cases preOk with
    | false => simp [preprocessingFailure, outBodies, outboundCalls] at hmem
    | true =>
      cases hr : r.bodyReadErr with
      | some e => simp [outBodies, outboundCalls_rawPUT, hr] at hmem
      | none =>
        cases hc : r.bodyCloseErr with
        | some e => simp [outBodies, outboundCalls_rawPUT, hr, hc] at hmem
        | none =>
          simp [outBodies, outboundCalls_rawPUT, hr, hc] at hmem
          subst hmem
          exact strTake_length_le _ _
  · intro format hne c hmem
    unfold PUT at hmem
    cases preOk with
    | false => simp [preprocessingFailure, clientReads] at hmem
    | true =>
      by_cases hx : format = "XML"
      · cases hr : r.bodyReadErr with
        | some e =>
          simp [hne, hx, hr, clientReads] at hmem
          subst hmem; exact strTake_length_le _ _
        | none =>
          cases hc : r.bodyCloseErr with
          | some e =>
            simp [hne, hx, hr, hc, clientReads] at hmem
            subst hmem; exact strTake_length_le _ _
          | none =>
            cases hu : C.jsonUnmarshal (strTake r.body cfg.maxRequestSize) with
            | none =>
              simp [hne, hx, hr, hc, hu, clientReads] at hmem
              subst hmem; exact strTake_length_le _ _
            | some d =>
              simp [hne, hx, hr, hc, hu, clientReads, clientReads_xmlPUT]
                at hmem
              subst hmem; exact strTake_length_le _ _
      · by_cases hj : format = "JSON"
        · cases hr : r.bodyReadErr with
          | some e =>
            simp [hne, hx, hj, hr, clientReads] at hmem
            subst hmem; exact strTake_length_le _ _
          | none =>
            cases hc : r.bodyCloseErr with
            | some e =>
              simp [hne, hx, hj, hr, hc, clientReads] at hmem
              subst hmem; exact strTake_length_le _ _
            | none =>
              cases hu : C.jsonUnmarshal (strTake r.body cfg.maxRequestSize) with
              | none =>
                simp [hne, hx, hj, hr, hc, hu, clientReads] at hmem
                subst hmem; exact strTake_length_le _ _
              | some d =>
                simp [hne, hx, hj, hr, hc, hu, clientReads, clientReads_jsonPUT]
                  at hmem
                subst hmem; exact strTake_length_le _ _
        · simp [hne, hx, hj, clientReads] at hmem

/-- C8 witness: the concrete bounds at a small request. -/
theorem c8_witness :
    ("\"a\"" : String).length ≤ cfg0.maxFileUploadSize ∧
    ("\"a\"" : String).length ≤ cfg0.maxRequestSize := by
  constructor
  · exact (c8_read_bounds_amended toyCodecs cfg0 "u" "" rIn true
      (Except.error "e")).1 "\"a\"" (by decide)
  · exact (c8_read_bounds_amended toyCodecs cfg0 "u" "" rIn true
      (Except.error "e")).2.2 "JSON" (by decide) "\"a\"" (by decide)

end ArborProxy
